import Mathlib

/-!
Verification of the character-to-key-event conversion core
(`src/types/convert.cpp`): encoding bridge (`ConvertToW`, `ConvertToA`,
`GetALengthFromW`), the event synthesizers (`SynthesizeKeyboardEvents`,
`SynthesizeNumpadEvents`), the dispatcher (`CharToKeyEvents`), and the
helpers `GetQuickCharWidth` and `Utf16ToUcs2`.

Modelling conventions: wide strings are `List Nat` (UTF-16 code units),
multibyte strings are `List Int` (C `char` is signed on the target
platform, which matters for the numpad fallback), machine integers are
`Nat`/`Int` with explicit truncation where the code truncates, and
fallible code returns `Except`. The OS conversion primitives
(`WideCharToMultiByte` / `MultiByteToWideChar`) together with the
thread-local last-error cell are modelled as an explicit oracle
(`OsApi`) plus an explicitly threaded `lastError : Nat` value.
-/

set_option autoImplicit false

namespace ConvertSpec

/-! ## Constants

Fixed scan codes from `convert.cpp` and the Windows SDK constants the
file uses (virtual keys, console modifier flags, character class flags).
-/

def altScanCode : Nat := 0x38

def leftShiftScanCode : Nat := 0x2A

def VK_SHIFT : Nat := 0x10

def VK_MENU : Nat := 0x12

def VK_NUMPAD0 : Nat := 0x60

def UNICODE_NULL : Nat := 0

def UNICODE_REPLACEMENT : Nat := 0xFFFD

def RIGHT_ALT_PRESSED : Nat := 0x0001

def LEFT_ALT_PRESSED : Nat := 0x0002

def LEFT_CTRL_PRESSED : Nat := 0x0008

def SHIFT_PRESSED : Nat := 0x0010

def ENHANCED_KEY : Nat := 0x0100

def C3_ALPHA : Nat := 0x8000

namespace VkKeyScanModState

/-- Modelled from the spec: the shift-state categories of the layout
resolver result (`VkKeyScanModState` lives in a header that is not part
of the source file); the spec describes the byte as the OS combined
shift-state byte, whose documented bits are Shift = 1, Ctrl = 2,
Alt = 4, with AltGr represented as simultaneous Ctrl and Alt bits. -/
def ShiftPressed : Nat := 1

def CtrlPressed : Nat := 2

def AltPressed : Nat := 4

def CtrlAndAltPressed : Nat := 6

end VkKeyScanModState

/-! ## Data model -/

/-- One synthetic input record, mirroring the `KeyEvent` value object:
key-down flag, repeat count, virtual key, virtual scan code, character
(0 is the null character) and the modifier-flag bitmask. -/
structure KeyEvent where
  keyDown : Bool
  repeatCount : Nat
  virtualKeyCode : Nat
  virtualScanCode : Nat
  charData : Nat
  activeModifierKeys : Nat
deriving Repr, DecidableEq

/-- Error taxonomy of the core: a genuine OS conversion failure
(carrying the Win32 last-error code it was thrown with), a safe-math or
narrowing overflow, and a violated caller precondition. -/
inductive ConvError where
  | conversionFailure (gle : Nat)
  | arithmeticOverflow
  | invalidArgument
deriving Repr, DecidableEq

/-- Result of one call to an OS conversion primitive: the returned
count (`0` means "did not succeed" in the API documentation), the data
written into the caller buffer, and the error code the call stores into
the thread-local last-error cell (`none` = the cell is left untouched). -/
structure OsCallResult (α : Type) where
  ret : Nat
  out : List α
  errSet : Option Nat
deriving Repr

/-- The opaque OS conversion primitives. `mb2wc` is
`MultiByteToWideChar`, `wc2mb` is `WideCharToMultiByte`; the `Option
Nat` argument is the output buffer capacity, `none` being the
measure-only form with a null buffer. Both are deterministic functions
of their arguments. -/
structure OsApi where
  mb2wc : Nat → List Int → Option Nat → OsCallResult Nat
  wc2mb : Nat → List Nat → Option Nat → OsCallResult Int

/-- The `INT_MAX` bound enforced by `SizeTToInt`. -/
def intMax : Nat := 2147483647

/-- Resizing a buffer to `n` elements and then letting a conversion
call overwrite it: the written data truncated to `n`, padded with the
zero fill of `resize`. -/
def fixLen {α : Type} (l : List α) (n : Nat) (pad : α) : List α :=
  l.take n ++ List.replicate (n - l.length) pad

/-! ## Encoding bridge -/

/-- `ConvertToW`: multibyte to wide. The empty source bails out early
without touching the OS. Otherwise the source length is checked against
`INT_MAX`, the last-error cell is cleared (`SetLastError(0)`), the
length is measured, and `THROW_LAST_ERROR_IF_AND_IGNORE_BAD_GLE`
(modelled from the spec, since the macro lives outside the source file:
fail only when the call returned zero AND the last-error cell holds a
genuine nonzero error) guards both the measuring and the converting
call. Returns the result together with the final last-error value. -/
def ConvertToW (os : OsApi) (cp : Nat) (source : List Int) (lastError : Nat) :
    Except ConvError (List Nat) × Nat :=
  if source = [] then (.ok [], lastError)
  else if intMax < source.length then (.error .arithmeticOverflow, lastError)
  else
    let m := os.mb2wc cp source none
    let le1 := m.errSet.getD 0
    if m.ret = 0 ∧ le1 ≠ 0 then (.error (.conversionFailure le1), le1)
    else
      let c := os.mb2wc cp source (some m.ret)
      let le2 := c.errSet.getD le1
      if c.ret = 0 ∧ le2 ≠ 0 then (.error (.conversionFailure le2), le2)
      else (.ok (fixLen c.out m.ret 0), le2)

/-- `ConvertToA`: wide to multibyte. Same two-call protocol, but with
plain `THROW_LAST_ERROR_IF(0 == iTarget)`: any zero return fails the
call with whatever the last-error cell currently holds, and the cell is
never cleared first. -/
def ConvertToA (os : OsApi) (cp : Nat) (source : List Nat) (lastError : Nat) :
    Except ConvError (List Int) × Nat :=
  if source = [] then (.ok [], lastError)
  else if intMax < source.length then (.error .arithmeticOverflow, lastError)
  else
    let m := os.wc2mb cp source none
    let le1 := m.errSet.getD lastError
    if m.ret = 0 then (.error (.conversionFailure le1), le1)
    else
      let c := os.wc2mb cp source (some m.ret)
      let le2 := c.errSet.getD le1
      if c.ret = 0 then (.error (.conversionFailure le2), le2)
      else (.ok (fixLen c.out m.ret 0), le2)

/-- `GetALengthFromW`: measure-only form of the wide-to-multibyte
conversion, single OS call, same plain `THROW_LAST_ERROR_IF` policy. -/
def GetALengthFromW (os : OsApi) (cp : Nat) (source : List Nat) (lastError : Nat) :
    Except ConvError Nat × Nat :=
  if source = [] then (.ok 0, lastError)
  else if intMax < source.length then (.error .arithmeticOverflow, lastError)
  else
    let m := os.wc2mb cp source none
    let le1 := m.errSet.getD lastError
    if m.ret = 0 then (.error (.conversionFailure le1), le1)
    else (.ok m.ret, le1)

/-! ## Event synthesizer (direct path) -/

/-- The `gsl::narrow<WORD>` narrowing of the `MapVirtualKeyW` result:
fatal if the value does not fit 16 bits. -/
def narrowWord (n : Nat) : Except ConvError Nat :=
  if n < 65536 then .ok n else .error .arithmeticOverflow

/-- The bracketing modifier press emitted before the primary pair: an
Alt down with Enhanced, LeftCtrl and RightAlt when both Ctrl and Alt
bits are set (AltGr, checked first), else a Shift down with the Shift
flag when the Shift bit is set, else nothing. `m` is the modifier byte
`HIBYTE(keyState)`. -/
def kbdPre (m : Nat) : List KeyEvent :=
  if m &&& VkKeyScanModState.CtrlAndAltPressed = VkKeyScanModState.CtrlAndAltPressed then
    [⟨true, 1, VK_MENU, altScanCode, UNICODE_NULL,
      ENHANCED_KEY ||| LEFT_CTRL_PRESSED ||| RIGHT_ALT_PRESSED⟩]
  else if m &&& VkKeyScanModState.ShiftPressed ≠ 0 then
    [⟨true, 1, VK_SHIFT, leftShiftScanCode, UNICODE_NULL, SHIFT_PRESSED⟩]
  else []

/-- The matching bracketing modifier release emitted after the primary
pair, in the same branch taken by `kbdPre`: Alt up with Enhanced only,
or Shift up with no flags, or nothing. -/
def kbdPost (m : Nat) : List KeyEvent :=
  if m &&& VkKeyScanModState.CtrlAndAltPressed = VkKeyScanModState.CtrlAndAltPressed then
    [⟨false, 1, VK_MENU, altScanCode, UNICODE_NULL, ENHANCED_KEY⟩]
  else if m &&& VkKeyScanModState.ShiftPressed ≠ 0 then
    [⟨false, 1, VK_SHIFT, leftShiftScanCode, UNICODE_NULL, 0⟩]
  else []

/-- The cumulative modifier flags of the primary character event:
start from zero, then Shift flag if the raw Shift bit is set, LeftCtrl
flag if the raw Ctrl bit is set, RightAlt flag if both Ctrl and Alt
bits are set (each `ActivateModifierKey` call sets one flag bit). -/
def kbdMods (m : Nat) : Nat :=
  let mods0 : Nat := 0
  let mods1 := if m &&& VkKeyScanModState.ShiftPressed ≠ 0
    then mods0 ||| SHIFT_PRESSED else mods0
  let mods2 := if m &&& VkKeyScanModState.CtrlPressed ≠ 0
    then mods1 ||| LEFT_CTRL_PRESSED else mods1
  if m &&& VkKeyScanModState.CtrlAndAltPressed = VkKeyScanModState.CtrlAndAltPressed
    then mods2 ||| RIGHT_ALT_PRESSED else mods2

/-- `SynthesizeKeyboardEvents`: expand a resolved `(character,
keyState)` into the ordered event sequence. `keyState` is the C
`short` returned by `VkKeyScanW`; `HIBYTE`/`LOBYTE` read its 16-bit
two's-complement representation, modelled as `keyState mod 2^16`.
`mapVk` is the opaque `MapVirtualKeyW(_, MAPVK_VK_TO_VSC)` collaborator
whose result is narrowed to 16 bits. -/
def SynthesizeKeyboardEvents (mapVk : Nat → Nat) (wch : Nat) (keyState : Int) :
    Except ConvError (List KeyEvent) :=
  let w : Nat := (Int.emod keyState 65536).toNat
  let modifierState : Nat := w / 256
  let vk : Nat := w % 256
  match narrowWord (mapVk vk) with
  | .error e => .error e
  | .ok virtualScanCode =>
      let keyEvent : KeyEvent := ⟨true, 1, vk, virtualScanCode, wch, kbdMods modifierState⟩
      .ok (kbdPre modifierState ++
           keyEvent :: { keyEvent with keyDown := false } :: kbdPost modifierState)

/-! ## Numpad fallback synthesizer -/

/-- Decimal digit list of `n`, most significant first, no leading
zeros, `[0]` for zero: the digits of `std::to_string` of the unsigned
byte. Structural recursion on a fuel bound of `n + 1`. -/
def decDigitsAux : Nat → Nat → List Nat
  | 0, _ => []
  | fuel + 1, n => if n < 10 then [n] else decDigitsAux fuel (n / 10) ++ [n % 10]

def decDigits (n : Nat) : List Nat := decDigitsAux (n + 1) n

/-- The digit-emission loop of `SynthesizeNumpadEvents`: walk the
characters of the rendered decimal string, stop at a null character,
and emit a down/up pair on `VK_NUMPAD0 + digit` (scan code narrowed
from `MapVirtualKeyW`), each tagged LeftAlt with a null character. -/
def numpadLoop (mapVk : Nat → Nat) : List Nat → Except ConvError (List KeyEvent)
  | [] => .ok []
  | ch :: rest =>
    if ch = 0 then .ok []
    else
      match narrowWord (mapVk (ch - 48 + VK_NUMPAD0)) with
      | .error e => .error e
      | .ok virtualScanCode =>
        match numpadLoop mapVk rest with
        | .error e => .error e
        | .ok tail =>
          .ok (⟨true, 1, ch - 48 + VK_NUMPAD0, virtualScanCode, UNICODE_NULL, LEFT_ALT_PRESSED⟩ ::
               ⟨false, 1, ch - 48 + VK_NUMPAD0, virtualScanCode, UNICODE_NULL, LEFT_ALT_PRESSED⟩ ::
               tail)

/-- `SynthesizeNumpadEvents`: Alt down with LeftAlt; convert the single
character through `ConvertToA`; if and only if the conversion yields
exactly one byte, reinterpret it as unsigned (`static_cast<unsigned
char>`, modelled as `Int.emod _ 256`), render its decimal digits and
run the digit loop; close with an Alt up that carries the original
character and no flags. A conversion failure aborts the whole call. -/
def SynthesizeNumpadEvents (os : OsApi) (mapVk : Nat → Nat)
    (wch : Nat) (cp : Nat) (lastError : Nat) : Except ConvError (List KeyEvent) :=
  match (ConvertToA os cp [wch] lastError).1 with
  | .error e => .error e
  | .ok convertedChars =>
    match (match convertedChars with
           | [b] =>
             numpadLoop mapVk ((decDigits (Int.emod b 256).toNat).map (fun d => d + 48))
           | _ => .ok []) with
    | .error e => .error e
    | .ok digitEvents =>
      .ok (⟨true, 1, VK_MENU, altScanCode, UNICODE_NULL, LEFT_ALT_PRESSED⟩ ::
           digitEvents ++ [⟨false, 1, VK_MENU, altScanCode, wch, 0⟩])

/-! ## Width helper, dispatcher, UTF-16 extraction -/

inductive CodepointWidth where
  | Invalid
  | Narrow
  | Wide
deriving Repr, DecidableEq

/-- `GetQuickCharWidth`: printable ASCII is narrow, everything else is
invalid. -/
def GetQuickCharWidth (wch : Nat) : CodepointWidth :=
  if 0x20 ≤ wch ∧ wch ≤ 0x7e then .Narrow else .Invalid

/-- `CharToKeyEvents`: resolve the character through the layout
resolver (`vkKeyScan`, the opaque `VkKeyScanW`, returning a C `short`
with `-1` meaning no mapping). On no mapping, consult the character
type from `GetStringTypeW` (`getStringType`, an opaque collaborator
returning the `CT_CTYPE3` word) and the quick width: an alphabetic or
wide character forces `keyState` to zero. A still-invalid key routes to
the numpad fallback, anything else to the direct synthesizer. -/
def CharToKeyEvents (vkKeyScan : Nat → Int) (getStringType : Nat → Nat)
    (os : OsApi) (mapVk : Nat → Nat)
    (wch : Nat) (cp : Nat) (lastError : Nat) : Except ConvError (List KeyEvent) :=
  let invalidKey : Int := -1
  let keyState0 := vkKeyScan wch
  let keyState :=
    if keyState0 = invalidKey ∧
        (getStringType wch &&& C3_ALPHA ≠ 0 ∨ GetQuickCharWidth wch = CodepointWidth.Wide)
    then 0 else keyState0
  if keyState = invalidKey then SynthesizeNumpadEvents os mapVk wch cp lastError
  else SynthesizeKeyboardEvents mapVk wch keyState

/-- `Utf16ToUcs2`: empty input violates the precondition
(`E_INVALIDARG`); more than one code unit degrades to the replacement
character; exactly one code unit is returned as is. -/
def Utf16ToUcs2 (charData : List Nat) : Except ConvError Nat :=
  if charData = [] then .error .invalidArgument
  else if 1 < charData.length then .ok UNICODE_REPLACEMENT
  else .ok charData.headI

/-! ## Concrete OS oracles used as witnesses -/

/-- An oracle on which the wide-to-multibyte direction always succeeds
with the single byte `-1` (the signed reading of `0xFF`, as code page
437 produces for the nonbreaking space), and the multibyte-to-wide
direction is a zero-length success that reports no error. -/
def sampleOs : OsApi where
  wc2mb := fun _ _ _ => ⟨1, [-1], none⟩
  mb2wc := fun _ _ _ => ⟨0, [], none⟩

/-- An oracle whose wide-to-multibyte conversion expands the input to
two bytes. -/
def twoByteOs : OsApi where
  wc2mb := fun _ _ _ => ⟨2, [65, 66], none⟩
  mb2wc := fun _ _ _ => ⟨0, [], none⟩

/-- An oracle whose calls all succeed with zero output and set no
error code. -/
def zeroOutputOs : OsApi where
  wc2mb := fun _ _ _ => ⟨0, [], none⟩
  mb2wc := fun _ _ _ => ⟨0, [], none⟩

/-! ## Helper lemmas -/

/-- The digit renderer is correct below its fuel bound: nonempty, all
digits below ten, evaluating back to the rendered number, and no
leading zero for a nonzero number. -/
theorem decDigitsAux_spec (fuel : Nat) : ∀ n : Nat, n < fuel →
    decDigitsAux fuel n ≠ [] ∧
    (∀ d ∈ decDigitsAux fuel n, d < 10) ∧
    (decDigitsAux fuel n).foldl (fun a d => 10 * a + d) 0 = n ∧
    (n ≠ 0 → (decDigitsAux fuel n).headI ≠ 0) := by
  induction fuel with
  | zero => intro n hn; omega
  | succ f ih =>
    intro n hn
    by_cases h10 : n < 10
    · refine ⟨by simp [decDigitsAux, h10], ?_, by simp [decDigitsAux, h10], ?_⟩
      · intro d hd
        simp [decDigitsAux, h10] at hd
        omega
      · intro hne
        simp [decDigitsAux, h10, List.headI]
        exact hne
    · have hdiv : n / 10 < f := by
        have h1 : n / 10 < n := Nat.div_lt_self (by omega) (by omega)
        omega
      obtain ⟨hne, hlt, hfold, hhead⟩ := ih (n / 10) hdiv
      have heq : decDigitsAux (f + 1) n = decDigitsAux f (n / 10) ++ [n % 10] := by
        simp [decDigitsAux, h10]
      refine ⟨by simp [heq], ?_, ?_, ?_⟩
      · intro d hd
        rw [heq] at hd
        rcases List.mem_append.mp hd with h | h
        · exact hlt d h
        · simp at h; omega
      · rw [heq, List.foldl_append, hfold]
        simp
        omega
      · intro _
        rw [heq]
        rcases hl : decDigitsAux f (n / 10) with _ | ⟨a, t⟩
        · exact absurd hl hne
        · have := hhead (by omega)
          rw [hl] at this
          simpa using this

/-- Specialization of `decDigitsAux_spec` to the fuel actually used. -/
theorem decDigits_spec (n : Nat) :
    decDigits n ≠ [] ∧ (∀ d ∈ decDigits n, d < 10) ∧
    (decDigits n).foldl (fun a d => 10 * a + d) 0 = n ∧
    (n ≠ 0 → (decDigits n).headI ≠ 0) :=
  decDigitsAux_spec (n + 1) n (Nat.lt_succ_self n)

/-- The digit loop on a rendered digit string never hits the null-stop,
and emits one down/up pair per digit, provided each numpad scan code
fits 16 bits. -/
theorem numpadLoop_digits (mapVk : Nat → Nat) (ds : List Nat)
    (hm : ∀ d ∈ ds, mapVk (VK_NUMPAD0 + d) < 65536) :
    numpadLoop mapVk (ds.map (fun d => d + 48)) =
      .ok (ds.flatMap (fun d =>
        [⟨true, 1, VK_NUMPAD0 + d, mapVk (VK_NUMPAD0 + d), UNICODE_NULL, LEFT_ALT_PRESSED⟩,
         ⟨false, 1, VK_NUMPAD0 + d, mapVk (VK_NUMPAD0 + d), UNICODE_NULL, LEFT_ALT_PRESSED⟩])) := by
  induction ds with
  | nil => rfl
  | cons d rest ih =>
    have h0 : ¬ (d + 48 = 0) := by omega
    have hv : d + 48 - 48 + VK_NUMPAD0 = VK_NUMPAD0 + d := by
      simp [VK_NUMPAD0]
      omega
    have hm0 : mapVk (VK_NUMPAD0 + d) < 65536 := hm d (List.mem_cons_self d rest)
    have hrest : ∀ x ∈ rest, mapVk (VK_NUMPAD0 + x) < 65536 :=
      fun x hx => hm x (List.mem_cons_of_mem d hx)
    simp only [List.map_cons, numpadLoop, if_neg h0, hv, narrowWord, if_pos hm0,
      ih hrest, List.flatMap_cons]
    rfl

/-- Every event produced by the digit loop carries the null character. -/
theorem numpadLoop_charData (mapVk : Nat → Nat) :
    ∀ (l : List Nat) (res : List KeyEvent), numpadLoop mapVk l = .ok res →
      ∀ e ∈ res, e.charData = UNICODE_NULL := by
  intro l
  induction l with
  | nil =>
    intro res h e he
    simp only [numpadLoop] at h
    cases h
    cases he
  | cons ch rest ih =>
    intro res h e he
    simp only [numpadLoop] at h
    by_cases h0 : ch = 0
    · rw [if_pos h0] at h
      cases h
      cases he
    · rw [if_neg h0] at h
      rcases hn : narrowWord (mapVk (ch - 48 + VK_NUMPAD0)) with e1 | sc
      · rw [hn] at h; cases h
      · rw [hn] at h
        rcases hl : numpadLoop mapVk rest with e2 | tail
        · rw [hl] at h; cases h
        · rw [hl] at h
          cases h
          rcases List.mem_cons.mp he with he1 | he1
          · rw [he1]
          · rcases List.mem_cons.mp he1 with he2 | he2
            · rw [he2]
            · exact ih tail hl e he2

/-- A buffer resized to `n` and then overwritten has length `n`. -/
theorem fixLen_length {α : Type} (l : List α) (n : Nat) (pad : α) :
    (fixLen l n pad).length = n := by
  simp [fixLen]
  omega

/-- Length of a per-digit down/up expansion. -/
theorem flatMap_pair_length (ds : List Nat) (f : Nat → List KeyEvent)
    (hf : ∀ d, (f d).length = 2) :
    (ds.flatMap f).length = 2 * ds.length := by
  induction ds with
  | nil => rfl
  | cons d rest ih => simp [List.flatMap_cons, ih, hf d]; omega

/-- Output shape of the direct synthesizer when the scan-code narrowing
succeeds: the bracketing prefix, the primary down/up pair carrying the
character and the cumulative flags, and the bracketing suffix. -/
theorem synthesizeKeyboardEvents_eq (mapVk : Nat → Nat) (wch : Nat) (keyState : Int)
    (hn : mapVk ((Int.emod keyState 65536).toNat % 256) < 65536) :
    SynthesizeKeyboardEvents mapVk wch keyState =
      .ok (kbdPre ((Int.emod keyState 65536).toNat / 256) ++
           ⟨true, 1, (Int.emod keyState 65536).toNat % 256,
            mapVk ((Int.emod keyState 65536).toNat % 256), wch,
            kbdMods ((Int.emod keyState 65536).toNat / 256)⟩ ::
           ⟨false, 1, (Int.emod keyState 65536).toNat % 256,
            mapVk ((Int.emod keyState 65536).toNat % 256), wch,
            kbdMods ((Int.emod keyState 65536).toNat / 256)⟩ ::
           kbdPost ((Int.emod keyState 65536).toNat / 256)) := by
  simp only [SynthesizeKeyboardEvents, narrowWord, if_pos hn]

/-- Every bracketing press carries the null character. -/
theorem kbdPre_charData (m : Nat) : ∀ e ∈ kbdPre m, e.charData = UNICODE_NULL := by
  unfold kbdPre
  split_ifs <;> simp

/-- Every bracketing release carries the null character. -/
theorem kbdPost_charData (m : Nat) : ∀ e ∈ kbdPost m, e.charData = UNICODE_NULL := by
  unfold kbdPost
  split_ifs <;> simp

/-- Bit content of the primary event flags: Shift exactly on the raw
Shift bit, LeftCtrl exactly on the raw Ctrl bit, RightAlt exactly on
the AltGr combination, and no other flags. -/
theorem kbdMods_bits (m : Nat) :
    (kbdMods m &&& SHIFT_PRESSED ≠ 0 ↔ m &&& VkKeyScanModState.ShiftPressed ≠ 0) ∧
    (kbdMods m &&& LEFT_CTRL_PRESSED ≠ 0 ↔ m &&& VkKeyScanModState.CtrlPressed ≠ 0) ∧
    (kbdMods m &&& RIGHT_ALT_PRESSED ≠ 0 ↔
      m &&& VkKeyScanModState.CtrlAndAltPressed = VkKeyScanModState.CtrlAndAltPressed) ∧
    kbdMods m &&& (SHIFT_PRESSED ||| LEFT_CTRL_PRESSED ||| RIGHT_ALT_PRESSED) = kbdMods m := by
  simp only [kbdMods]
  by_cases h1 : m &&& VkKeyScanModState.ShiftPressed ≠ 0
  all_goals by_cases h2 : m &&& VkKeyScanModState.CtrlPressed ≠ 0
  all_goals by_cases h3 : m &&& VkKeyScanModState.CtrlAndAltPressed =
    VkKeyScanModState.CtrlAndAltPressed
  all_goals first | rw [if_pos h1] | rw [if_neg h1]
  all_goals first | rw [if_pos h2] | rw [if_neg h2]
  all_goals first | rw [if_pos h3] | rw [if_neg h3]
  all_goals refine ⟨?_, ?_, ?_, by decide⟩
  all_goals first
    | exact iff_of_true (by decide) (by assumption)
    | exact iff_of_false (by decide) (by assumption)

/-- Successful numpad synthesis is always an Alt bracket around
null-character digit events, closed by the Alt release that carries
the original character. -/
theorem synthesizeNumpadEvents_shape (os : OsApi) (mapVk : Nat → Nat)
    (wch cp le : Nat) (evs : List KeyEvent)
    (h : SynthesizeNumpadEvents os mapVk wch cp le = .ok evs) :
    ∃ mid, evs = ⟨true, 1, VK_MENU, altScanCode, UNICODE_NULL, LEFT_ALT_PRESSED⟩ ::
        mid ++ [⟨false, 1, VK_MENU, altScanCode, wch, 0⟩] ∧
      ∀ e ∈ mid, e.charData = UNICODE_NULL := by
  rcases hC : (ConvertToA os cp [wch] le).1 with er | chars
  · rw [SynthesizeNumpadEvents, hC] at h
    cases h
  · rw [SynthesizeNumpadEvents, hC] at h
    rcases chars with _ | ⟨b, _ | ⟨c, rest⟩⟩
    · simp only [] at h
      cases h
      exact ⟨[], rfl, by intro e he; cases he⟩
    · simp only [] at h
      rcases hL : numpadLoop mapVk
          ((decDigits (Int.emod b 256).toNat).map (fun d => d + 48)) with er | tail
      · rw [hL] at h
        cases h
      · rw [hL] at h
        cases h
        exact ⟨tail, rfl, numpadLoop_charData mapVk _ tail hL⟩
    · simp only [] at h
      cases h
      exact ⟨[], rfl, by intro e he; cases he⟩

/-! ## Claim theorems -/

/-- C1: for a character whose conversion to the target code page yields
exactly one byte, read unsigned as `b` in 0..255 with decimal digits
`d1..dk` (no leading zeros), `SynthesizeNumpadEvents` returns exactly
`2 + 2k` events: Alt down with LeftAlt and null character, then per
digit a down/up pair on `VK_NUMPAD0 + di` with LeftAlt and null
character, then an Alt up carrying the original character and no
flags. -/
theorem numpad_single_byte_events (os : OsApi) (mapVk : Nat → Nat)
    (wch cp le : Nat) (b : Int)
    (hconv : (ConvertToA os cp [wch] le).1 = .ok [b])
    (hmap : ∀ d, d < 10 → mapVk (VK_NUMPAD0 + d) < 65536) :
    (∀ d ∈ decDigits (Int.emod b 256).toNat, d < 10) ∧
    decDigits (Int.emod b 256).toNat ≠ [] ∧
    (decDigits (Int.emod b 256).toNat).foldl (fun a d => 10 * a + d) 0 =
      (Int.emod b 256).toNat ∧
    ((Int.emod b 256).toNat ≠ 0 → (decDigits (Int.emod b 256).toNat).headI ≠ 0) ∧
    (Int.emod b 256).toNat < 256 ∧
    SynthesizeNumpadEvents os mapVk wch cp le =
      .ok (⟨true, 1, VK_MENU, altScanCode, UNICODE_NULL, LEFT_ALT_PRESSED⟩ ::
           (decDigits (Int.emod b 256).toNat).flatMap (fun d =>
             [⟨true, 1, VK_NUMPAD0 + d, mapVk (VK_NUMPAD0 + d), UNICODE_NULL, LEFT_ALT_PRESSED⟩,
              ⟨false, 1, VK_NUMPAD0 + d, mapVk (VK_NUMPAD0 + d), UNICODE_NULL,
               LEFT_ALT_PRESSED⟩]) ++
           [⟨false, 1, VK_MENU, altScanCode, wch, 0⟩]) ∧
    (SynthesizeNumpadEvents os mapVk wch cp le).map List.length =
      .ok (2 + 2 * (decDigits (Int.emod b 256).toNat).length) := by
  obtain ⟨hne, hlt, hfold, hhead⟩ := decDigits_spec (Int.emod b 256).toNat
  have hub : (Int.emod b 256).toNat < 256 := by
    have h1 : Int.emod b 256 < 256 := Int.emod_lt_of_pos b (by norm_num)
    have h2 : 0 ≤ Int.emod b 256 := Int.emod_nonneg b (by norm_num)
    omega
  have hmap2 : ∀ d ∈ decDigits (Int.emod b 256).toNat, mapVk (VK_NUMPAD0 + d) < 65536 :=
    fun d hd => hmap d (hlt d hd)
  have hev : SynthesizeNumpadEvents os mapVk wch cp le =
      .ok (⟨true, 1, VK_MENU, altScanCode, UNICODE_NULL, LEFT_ALT_PRESSED⟩ ::
           (decDigits (Int.emod b 256).toNat).flatMap (fun d =>
             [⟨true, 1, VK_NUMPAD0 + d, mapVk (VK_NUMPAD0 + d), UNICODE_NULL, LEFT_ALT_PRESSED⟩,
              ⟨false, 1, VK_NUMPAD0 + d, mapVk (VK_NUMPAD0 + d), UNICODE_NULL,
               LEFT_ALT_PRESSED⟩]) ++
           [⟨false, 1, VK_MENU, altScanCode, wch, 0⟩]) := by
    rw [SynthesizeNumpadEvents, hconv]
    simp only []
    rw [numpadLoop_digits mapVk _ hmap2]
  refine ⟨hlt, hne, hfold, hhead, hub, hev, ?_⟩
  have hlen2 := flatMap_pair_length (decDigits (Int.emod b 256).toNat)
    (fun d =>
      [⟨true, 1, VK_NUMPAD0 + d, mapVk (VK_NUMPAD0 + d), UNICODE_NULL, LEFT_ALT_PRESSED⟩,
       ⟨false, 1, VK_NUMPAD0 + d, mapVk (VK_NUMPAD0 + d), UNICODE_NULL, LEFT_ALT_PRESSED⟩])
    (fun d => rfl)
  rw [hev]
  simp only [Except.map, List.length_cons, List.length_append, hlen2, List.length_nil]
  rw [Except.ok.injEq]
  omega

/-- C1 witness: code page 437 maps the nonbreaking space to the signed
byte `-1`, read unsigned as 255, giving digit keys 2, 5, 5. -/
theorem numpad_single_byte_events_witness :
    SynthesizeNumpadEvents sampleOs (fun _ => 9) 160 437 0 =
      .ok (⟨true, 1, VK_MENU, altScanCode, UNICODE_NULL, LEFT_ALT_PRESSED⟩ ::
           (decDigits (Int.emod (-1) 256).toNat).flatMap (fun d =>
             [⟨true, 1, VK_NUMPAD0 + d, 9, UNICODE_NULL, LEFT_ALT_PRESSED⟩,
              ⟨false, 1, VK_NUMPAD0 + d, 9, UNICODE_NULL, LEFT_ALT_PRESSED⟩]) ++
           [⟨false, 1, VK_MENU, altScanCode, 160, 0⟩]) :=
  (numpad_single_byte_events sampleOs (fun _ => 9) 160 437 0 (-1) rfl
    (fun d hd => by show (9 : Nat) < 65536; decide)).2.2.2.2.2.1

/-- C6: when the conversion succeeds with a byte string of length other
than one, no digit events and no error: exactly the two-event Alt
bracket, the release carrying the original character. -/
theorem numpad_multibyte_skip (os : OsApi) (mapVk : Nat → Nat)
    (wch cp le : Nat) (l : List Int)
    (hconv : (ConvertToA os cp [wch] le).1 = .ok l) (hlen : l.length ≠ 1) :
    SynthesizeNumpadEvents os mapVk wch cp le =
      .ok [⟨true, 1, VK_MENU, altScanCode, UNICODE_NULL, LEFT_ALT_PRESSED⟩,
           ⟨false, 1, VK_MENU, altScanCode, wch, 0⟩] := by
  rw [SynthesizeNumpadEvents, hconv]
  rcases l with _ | ⟨b, _ | ⟨c, rest⟩⟩
  · rfl
  · exact absurd rfl hlen
  · rfl

/-- C6 witness: a character that expands to two bytes produces only the
Alt bracket. -/
theorem numpad_multibyte_skip_witness :
    SynthesizeNumpadEvents twoByteOs (fun _ => 0) 160 437 0 =
      .ok [⟨true, 1, VK_MENU, altScanCode, UNICODE_NULL, LEFT_ALT_PRESSED⟩,
           ⟨false, 1, VK_MENU, altScanCode, 160, 0⟩] :=
  numpad_multibyte_skip twoByteOs (fun _ => 0) 160 437 0 [65, 66] rfl (by decide)

/-- C3: a modifier byte with both Ctrl and Alt bits set yields exactly
four events: Alt down with Enhanced, LeftCtrl and RightAlt and a null
character, the character down, the character up, and Alt up with
Enhanced only. -/
theorem kbd_altGr_sequence (mapVk : Nat → Nat) (wch : Nat) (keyState : Int)
    (hmod : ((Int.emod keyState 65536).toNat / 256) &&& VkKeyScanModState.CtrlAndAltPressed =
      VkKeyScanModState.CtrlAndAltPressed)
    (hn : mapVk ((Int.emod keyState 65536).toNat % 256) < 65536) :
    ∃ ce : KeyEvent, ce.keyDown = true ∧ ce.charData = wch ∧
      ce.virtualKeyCode = (Int.emod keyState 65536).toNat % 256 ∧
      SynthesizeKeyboardEvents mapVk wch keyState =
        .ok [⟨true, 1, VK_MENU, altScanCode, UNICODE_NULL,
              ENHANCED_KEY ||| LEFT_CTRL_PRESSED ||| RIGHT_ALT_PRESSED⟩,
             ce, { ce with keyDown := false },
             ⟨false, 1, VK_MENU, altScanCode, UNICODE_NULL, ENHANCED_KEY⟩] := by
  refine ⟨⟨true, 1, (Int.emod keyState 65536).toNat % 256,
    mapVk ((Int.emod keyState 65536).toNat % 256), wch,
    kbdMods ((Int.emod keyState 65536).toNat / 256)⟩, rfl, rfl, rfl, ?_⟩
  rw [synthesizeKeyboardEvents_eq mapVk wch keyState hn]
  simp only [kbdPre, kbdPost, if_pos hmod]
  rfl

/-- C3 witness: `keyState = 0x0641` is an AltGr resolution of the
character 65. -/
theorem kbd_altGr_sequence_witness :
    ∃ ce : KeyEvent, ce.keyDown = true ∧ ce.charData = 65 ∧
      ce.virtualKeyCode = (Int.emod 0x0641 65536).toNat % 256 ∧
      SynthesizeKeyboardEvents (fun _ => 7) 65 0x0641 =
        .ok [⟨true, 1, VK_MENU, altScanCode, UNICODE_NULL,
              ENHANCED_KEY ||| LEFT_CTRL_PRESSED ||| RIGHT_ALT_PRESSED⟩,
             ce, { ce with keyDown := false },
             ⟨false, 1, VK_MENU, altScanCode, UNICODE_NULL, ENHANCED_KEY⟩] :=
  kbd_altGr_sequence (fun _ => 7) 65 0x0641 (by decide) (by decide)

/-- C4 counterexample: with modifier byte 7 (Shift, Ctrl and Alt bits
all set) the AltGr category applies, so the claim says the primary
event must NOT carry the Shift flag; the code sets the Shift flag from
the raw Shift bit regardless, so the primary event carries modifier
flags 0x19 = Shift, LeftCtrl and RightAlt. -/
theorem kbd_shift_flag_cex :
    ((Int.emod 0x0741 65536).toNat / 256) &&& VkKeyScanModState.CtrlAndAltPressed =
      VkKeyScanModState.CtrlAndAltPressed ∧
    SynthesizeKeyboardEvents (fun _ => 0) 65 0x0741 =
      .ok [⟨true, 1, VK_MENU, altScanCode, UNICODE_NULL,
            ENHANCED_KEY ||| LEFT_CTRL_PRESSED ||| RIGHT_ALT_PRESSED⟩,
           ⟨true, 1, 0x41, 0, 65, 0x19⟩,
           ⟨false, 1, 0x41, 0, 65, 0x19⟩,
           ⟨false, 1, VK_MENU, altScanCode, UNICODE_NULL, ENHANCED_KEY⟩] ∧
    (0x19 : Nat) &&& SHIFT_PRESSED ≠ 0 :=
  ⟨by decide, rfl, by decide⟩

/-- C4 (amended): the primary event starts from zero flags and gains
them cumulatively, with the Shift flag exactly when the raw Shift bit
is set (even when the AltGr category applies), the LeftCtrl flag
exactly when the raw Ctrl bit is set, the RightAlt flag exactly when
both Ctrl and Alt bits are set, and no other flags. -/
theorem kbd_primary_flags_amended (mapVk : Nat → Nat) (wch : Nat) (keyState : Int)
    (hn : mapVk ((Int.emod keyState 65536).toNat % 256) < 65536) :
    ∃ ce : KeyEvent,
      SynthesizeKeyboardEvents mapVk wch keyState =
        .ok (kbdPre ((Int.emod keyState 65536).toNat / 256) ++
             ce :: { ce with keyDown := false } ::
             kbdPost ((Int.emod keyState 65536).toNat / 256)) ∧
      ce.keyDown = true ∧ ce.charData = wch ∧
      (ce.activeModifierKeys &&& SHIFT_PRESSED ≠ 0 ↔
        ((Int.emod keyState 65536).toNat / 256) &&& VkKeyScanModState.ShiftPressed ≠ 0) ∧
      (ce.activeModifierKeys &&& LEFT_CTRL_PRESSED ≠ 0 ↔
        ((Int.emod keyState 65536).toNat / 256) &&& VkKeyScanModState.CtrlPressed ≠ 0) ∧
      (ce.activeModifierKeys &&& RIGHT_ALT_PRESSED ≠ 0 ↔
        ((Int.emod keyState 65536).toNat / 256) &&& VkKeyScanModState.CtrlAndAltPressed =
          VkKeyScanModState.CtrlAndAltPressed) ∧
      ce.activeModifierKeys &&& (SHIFT_PRESSED ||| LEFT_CTRL_PRESSED ||| RIGHT_ALT_PRESSED) =
        ce.activeModifierKeys := by
  obtain ⟨hs, hc, ha, hall⟩ := kbdMods_bits ((Int.emod keyState 65536).toNat / 256)
  exact ⟨⟨true, 1, (Int.emod keyState 65536).toNat % 256,
    mapVk ((Int.emod keyState 65536).toNat % 256), wch,
    kbdMods ((Int.emod keyState 65536).toNat / 256)⟩,
    synthesizeKeyboardEvents_eq mapVk wch keyState hn, rfl, rfl, hs, hc, ha, hall⟩

/-- C4 witness: the amended flag characterization at `keyState =
0x0741`. -/
theorem kbd_primary_flags_amended_witness :
    ∃ ce : KeyEvent,
      SynthesizeKeyboardEvents (fun _ => 0) 65 0x0741 =
        .ok (kbdPre ((Int.emod 0x0741 65536).toNat / 256) ++
             ce :: { ce with keyDown := false } ::
             kbdPost ((Int.emod 0x0741 65536).toNat / 256)) ∧
      ce.keyDown = true ∧ ce.charData = 65 ∧
      (ce.activeModifierKeys &&& SHIFT_PRESSED ≠ 0 ↔
        ((Int.emod 0x0741 65536).toNat / 256) &&& VkKeyScanModState.ShiftPressed ≠ 0) ∧
      (ce.activeModifierKeys &&& LEFT_CTRL_PRESSED ≠ 0 ↔
        ((Int.emod 0x0741 65536).toNat / 256) &&& VkKeyScanModState.CtrlPressed ≠ 0) ∧
      (ce.activeModifierKeys &&& RIGHT_ALT_PRESSED ≠ 0 ↔
        ((Int.emod 0x0741 65536).toNat / 256) &&& VkKeyScanModState.CtrlAndAltPressed =
          VkKeyScanModState.CtrlAndAltPressed) ∧
      ce.activeModifierKeys &&& (SHIFT_PRESSED ||| LEFT_CTRL_PRESSED ||| RIGHT_ALT_PRESSED) =
        ce.activeModifierKeys :=
  kbd_primary_flags_amended (fun _ => 0) 65 0x0741 (by decide)

/-- C9 counterexample: in the numpad fallback for character 65 with
legacy byte 255, the closing bracketing Alt release carries the
original character 65, not the null character the claim requires of
every modifier-only event. -/
theorem numpad_altUp_char_cex :
    SynthesizeNumpadEvents sampleOs (fun _ => 0) 65 437 0 =
      .ok [⟨true, 1, VK_MENU, altScanCode, UNICODE_NULL, LEFT_ALT_PRESSED⟩,
           ⟨true, 1, 0x62, 0, UNICODE_NULL, LEFT_ALT_PRESSED⟩,
           ⟨false, 1, 0x62, 0, UNICODE_NULL, LEFT_ALT_PRESSED⟩,
           ⟨true, 1, 0x65, 0, UNICODE_NULL, LEFT_ALT_PRESSED⟩,
           ⟨false, 1, 0x65, 0, UNICODE_NULL, LEFT_ALT_PRESSED⟩,
           ⟨true, 1, 0x65, 0, UNICODE_NULL, LEFT_ALT_PRESSED⟩,
           ⟨false, 1, 0x65, 0, UNICODE_NULL, LEFT_ALT_PRESSED⟩,
           ⟨false, 1, VK_MENU, altScanCode, 65, 0⟩] ∧
    (65 : Nat) ≠ UNICODE_NULL :=
  ⟨rfl, by decide⟩

/-- C9 (amended): in the direct path the character sits only on the
primary down/up pair and every bracketing event carries the null
character; in the numpad path every event between the Alt bracket
carries the null character, the opening Alt press carries the null
character, and the closing Alt release is the one event that carries
the original source character. -/
theorem char_only_on_primary_amended (os : OsApi) (mapVk : Nat → Nat)
    (wch cp le : Nat) (keyState : Int)
    (hn : mapVk ((Int.emod keyState 65536).toNat % 256) < 65536) :
    (∃ ce : KeyEvent,
      SynthesizeKeyboardEvents mapVk wch keyState =
        .ok (kbdPre ((Int.emod keyState 65536).toNat / 256) ++
             ce :: { ce with keyDown := false } ::
             kbdPost ((Int.emod keyState 65536).toNat / 256)) ∧
      ce.charData = wch ∧
      (∀ e ∈ kbdPre ((Int.emod keyState 65536).toNat / 256), e.charData = UNICODE_NULL) ∧
      (∀ e ∈ kbdPost ((Int.emod keyState 65536).toNat / 256), e.charData = UNICODE_NULL)) ∧
    (∀ evs, SynthesizeNumpadEvents os mapVk wch cp le = .ok evs →
      ∃ mid, evs = ⟨true, 1, VK_MENU, altScanCode, UNICODE_NULL, LEFT_ALT_PRESSED⟩ ::
          mid ++ [⟨false, 1, VK_MENU, altScanCode, wch, 0⟩] ∧
        ∀ e ∈ mid, e.charData = UNICODE_NULL) := by
  constructor
  · exact ⟨⟨true, 1, (Int.emod keyState 65536).toNat % 256,
      mapVk ((Int.emod keyState 65536).toNat % 256), wch,
      kbdMods ((Int.emod keyState 65536).toNat / 256)⟩,
      synthesizeKeyboardEvents_eq mapVk wch keyState hn, rfl,
      kbdPre_charData _, kbdPost_charData _⟩
  · intro evs h
    exact synthesizeNumpadEvents_shape os mapVk wch cp le evs h

/-- C9 witness: the amended invariant at character 65 with `keyState =
0x41` and the 255-byte oracle. -/
theorem char_only_on_primary_amended_witness :
    (∃ ce : KeyEvent,
      SynthesizeKeyboardEvents (fun _ => 0) 65 0x41 =
        .ok (kbdPre ((Int.emod 0x41 65536).toNat / 256) ++
             ce :: { ce with keyDown := false } ::
             kbdPost ((Int.emod 0x41 65536).toNat / 256)) ∧
      ce.charData = 65 ∧
      (∀ e ∈ kbdPre ((Int.emod 0x41 65536).toNat / 256), e.charData = UNICODE_NULL) ∧
      (∀ e ∈ kbdPost ((Int.emod 0x41 65536).toNat / 256), e.charData = UNICODE_NULL)) ∧
    (∀ evs, SynthesizeNumpadEvents sampleOs (fun _ => 0) 65 437 0 = .ok evs →
      ∃ mid, evs = ⟨true, 1, VK_MENU, altScanCode, UNICODE_NULL, LEFT_ALT_PRESSED⟩ ::
          mid ++ [⟨false, 1, VK_MENU, altScanCode, 65, 0⟩] ∧
        ∀ e ∈ mid, e.charData = UNICODE_NULL) :=
  char_only_on_primary_amended sampleOs (fun _ => 0) 65 437 0 0x41 (by decide)

/-- C5: the classifiers are consulted only on the no-mapping path (a
resolved character routes identically for any classifier); with no
mapping, an alphabetic or wide classification routes to the direct
synthesizer with key state forced to zero, otherwise to the numpad
fallback with the given code page; the chosen synthesizer output is
returned unmodified. -/
theorem charToKeyEvents_routing (vkKeyScan : Nat → Int) (gst1 gst2 : Nat → Nat)
    (os : OsApi) (mapVk : Nat → Nat) (wch cp le : Nat) :
    (vkKeyScan wch ≠ -1 →
      CharToKeyEvents vkKeyScan gst1 os mapVk wch cp le =
        SynthesizeKeyboardEvents mapVk wch (vkKeyScan wch) ∧
      CharToKeyEvents vkKeyScan gst1 os mapVk wch cp le =
        CharToKeyEvents vkKeyScan gst2 os mapVk wch cp le) ∧
    (vkKeyScan wch = -1 →
      (gst1 wch &&& C3_ALPHA ≠ 0 ∨ GetQuickCharWidth wch = CodepointWidth.Wide) →
      CharToKeyEvents vkKeyScan gst1 os mapVk wch cp le =
        SynthesizeKeyboardEvents mapVk wch 0) ∧
    (vkKeyScan wch = -1 →
      ¬(gst1 wch &&& C3_ALPHA ≠ 0 ∨ GetQuickCharWidth wch = CodepointWidth.Wide) →
      CharToKeyEvents vkKeyScan gst1 os mapVk wch cp le =
        SynthesizeNumpadEvents os mapVk wch cp le) := by
  refine ⟨?_, ?_, ?_⟩
  · intro hne
    have h1 : ¬(vkKeyScan wch = -1 ∧
        (gst1 wch &&& C3_ALPHA ≠ 0 ∨ GetQuickCharWidth wch = CodepointWidth.Wide)) :=
      fun h => hne h.1
    have h2 : ¬(vkKeyScan wch = -1 ∧
        (gst2 wch &&& C3_ALPHA ≠ 0 ∨ GetQuickCharWidth wch = CodepointWidth.Wide)) :=
      fun h => hne h.1
    constructor
    · simp only [CharToKeyEvents, if_neg h1, if_neg hne]
    · simp only [CharToKeyEvents, if_neg h1, if_neg h2]
  · intro hm halpha
    have h1 : vkKeyScan wch = -1 ∧
        (gst1 wch &&& C3_ALPHA ≠ 0 ∨ GetQuickCharWidth wch = CodepointWidth.Wide) :=
      ⟨hm, halpha⟩
    have h0 : ¬((0 : Int) = -1) := by decide
    simp only [CharToKeyEvents, if_pos h1, if_neg h0]
  · intro hm halpha
    have h1 : ¬(vkKeyScan wch = -1 ∧
        (gst1 wch &&& C3_ALPHA ≠ 0 ∨ GetQuickCharWidth wch = CodepointWidth.Wide)) :=
      fun h => halpha h.2
    simp only [CharToKeyEvents, if_neg h1, if_pos hm]

/-- C5 witness: a resolved character (key state 65) routes to the
direct synthesizer regardless of the classifier. -/
theorem charToKeyEvents_routing_witness :
    CharToKeyEvents (fun _ => 65) (fun _ => 0) sampleOs (fun _ => 0) 97 437 0 =
      SynthesizeKeyboardEvents (fun _ => 0) 97 65 ∧
    CharToKeyEvents (fun _ => 65) (fun _ => 0) sampleOs (fun _ => 0) 97 437 0 =
      CharToKeyEvents (fun _ => 65) (fun _ => 1) sampleOs (fun _ => 0) 97 437 0 :=
  (charToKeyEvents_routing (fun _ => 65) (fun _ => 0) (fun _ => 1) sampleOs
    (fun _ => 0) 97 437 0).1 (by decide)

/-- C10: `GetQuickCharWidth` is Narrow exactly on printable ASCII and
Invalid everywhere else, never Wide; consequently on the no-mapping
path the width test can never force the direct branch by itself, so the
routing is decided by the alphabetic classification alone. -/
theorem getQuickCharWidth_never_wide (vkKeyScan : Nat → Int) (getStringType : Nat → Nat)
    (os : OsApi) (mapVk : Nat → Nat) (wch cp le : Nat)
    (hno : vkKeyScan wch = -1) :
    (GetQuickCharWidth wch = CodepointWidth.Narrow ↔ 0x20 ≤ wch ∧ wch ≤ 0x7e) ∧
    (¬(0x20 ≤ wch ∧ wch ≤ 0x7e) → GetQuickCharWidth wch = CodepointWidth.Invalid) ∧
    GetQuickCharWidth wch ≠ CodepointWidth.Wide ∧
    CharToKeyEvents vkKeyScan getStringType os mapVk wch cp le =
      (if getStringType wch &&& C3_ALPHA ≠ 0 then SynthesizeKeyboardEvents mapVk wch 0
       else SynthesizeNumpadEvents os mapVk wch cp le) := by
  have hW : GetQuickCharWidth wch ≠ CodepointWidth.Wide := by
    rw [GetQuickCharWidth]
    by_cases h : 0x20 ≤ wch ∧ wch ≤ 0x7e
    · rw [if_pos h]; decide
    · rw [if_neg h]; decide
  refine ⟨?_, ?_, hW, ?_⟩
  · constructor
    · intro h
      by_contra hc
      rw [GetQuickCharWidth, if_neg hc] at h
      cases h
    · intro h
      rw [GetQuickCharWidth, if_pos h]
  · intro h
    rw [GetQuickCharWidth, if_neg h]
  · by_cases halpha : getStringType wch &&& C3_ALPHA ≠ 0
    · rw [if_pos halpha]
      exact (charToKeyEvents_routing vkKeyScan getStringType getStringType os mapVk
        wch cp le).2.1 hno (Or.inl halpha)
    · rw [if_neg halpha]
      refine (charToKeyEvents_routing vkKeyScan getStringType getStringType os mapVk
        wch cp le).2.2 hno ?_
      rintro (h | h)
      · exact halpha h
      · exact hW h

/-- C10 witness: a CJK character with no layout mapping and a
non-alphabetic classification goes to the numpad fallback; its quick
width is Invalid, not Wide. -/
theorem getQuickCharWidth_never_wide_witness :
    (GetQuickCharWidth 0x3042 = CodepointWidth.Narrow ↔ 0x20 ≤ 0x3042 ∧ 0x3042 ≤ 0x7e) ∧
    (¬(0x20 ≤ 0x3042 ∧ 0x3042 ≤ 0x7e) → GetQuickCharWidth 0x3042 = CodepointWidth.Invalid) ∧
    GetQuickCharWidth 0x3042 ≠ CodepointWidth.Wide ∧
    CharToKeyEvents (fun _ => -1) (fun _ => 0) sampleOs (fun _ => 0) 0x3042 437 0 =
      (if (fun _ : Nat => 0) 0x3042 &&& C3_ALPHA ≠ 0 then
        SynthesizeKeyboardEvents (fun _ => 0) 0x3042 0
       else SynthesizeNumpadEvents sampleOs (fun _ => 0) 0x3042 437 0) :=
  getQuickCharWidth_never_wide (fun _ => -1) (fun _ => 0) sampleOs (fun _ => 0)
    0x3042 437 0 (by decide)

/-- C7 counterexample: two decoded code units where one is required do
not fail the call; the result is a successful degradation to the
replacement character U+FFFD, not an InvalidArgument error. -/
theorem utf16ToUcs2_two_units_cex :
    Utf16ToUcs2 [65, 66] = .ok UNICODE_REPLACEMENT ∧
    Utf16ToUcs2 [65, 66] ≠ .error ConvError.invalidArgument :=
  ⟨rfl, fun h => Except.noConfusion h⟩

/-- C7 (amended): only empty input fails with InvalidArgument; more
than one code unit degrades silently to the replacement character
U+FFFD; exactly one code unit is returned unchanged. -/
theorem utf16ToUcs2_amended (charData : List Nat) :
    (charData = [] → Utf16ToUcs2 charData = .error ConvError.invalidArgument) ∧
    (1 < charData.length → Utf16ToUcs2 charData = .ok UNICODE_REPLACEMENT) ∧
    (∀ c, charData = [c] → Utf16ToUcs2 charData = .ok c) := by
  refine ⟨?_, ?_, ?_⟩
  · intro h
    rw [h]
    rfl
  · intro h
    have hne : ¬(charData = []) := by
      intro he
      rw [he] at h
      simp at h
    rw [Utf16ToUcs2, if_neg hne, if_pos h]
  · intro c h
    rw [h]
    rfl

/-- C7 witness: the empty-input precondition failure. -/
theorem utf16ToUcs2_amended_witness :
    Utf16ToUcs2 [] = .error ConvError.invalidArgument :=
  (utf16ToUcs2_amended []).1 rfl

/-- C2 counterexample: an underlying conversion that succeeds with zero
output and reports no error (the errSet of the measuring call is
`none`) nevertheless makes `ConvertToA` fail, and the failure carries
the stale prior error code 5 that was never cleared — both halves of
the claim fail on `ConvertToA`. -/
theorem convertToA_zero_success_cex :
    (zeroOutputOs.wc2mb 437 [160] none).errSet = none ∧
    (ConvertToA zeroOutputOs 437 [160] 5).1 =
      .error (ConvError.conversionFailure 5) :=
  ⟨rfl, rfl⟩

/-- C2 (amended): the claimed policy — clear the stale error state
before the call and treat a zero-length success as no error — is the
one implemented by `ConvertToW` (bytes to wide): if neither underlying
call sets an error code, `ConvertToW` succeeds whatever the returned
counts and the stale error are, and any `ConvertToW` conversion
failure carries a nonzero code actually set by one of its two calls.
`ConvertToA` (wide to bytes) instead fails whenever the underlying
measuring call returns zero, propagating the never-cleared stale error
state. -/
theorem conversion_error_policy_amended (os : OsApi) (cp le : Nat)
    (bsrc : List Int) (wsrc : List Nat)
    (hb : bsrc ≠ []) (hbl : bsrc.length ≤ intMax)
    (hw : wsrc ≠ []) (hwl : wsrc.length ≤ intMax) :
    ((os.mb2wc cp bsrc none).errSet = none →
      (os.mb2wc cp bsrc (some (os.mb2wc cp bsrc none).ret)).errSet = none →
      (ConvertToW os cp bsrc le).1 =
        .ok (fixLen (os.mb2wc cp bsrc (some (os.mb2wc cp bsrc none).ret)).out
              (os.mb2wc cp bsrc none).ret 0)) ∧
    (∀ g, (ConvertToW os cp bsrc le).1 = .error (ConvError.conversionFailure g) →
      g ≠ 0 ∧ ((os.mb2wc cp bsrc none).errSet = some g ∨
        (os.mb2wc cp bsrc (some (os.mb2wc cp bsrc none).ret)).errSet = some g)) ∧
    ((os.wc2mb cp wsrc none).ret = 0 →
      (ConvertToA os cp wsrc le).1 =
        .error (ConvError.conversionFailure ((os.wc2mb cp wsrc none).errSet.getD le))) := by
  have hblt : ¬ intMax < bsrc.length := by omega
  have hwlt : ¬ intMax < wsrc.length := by omega
  refine ⟨?_, ?_, ?_⟩
  · intro h1 h2
    have hc1 : ¬((os.mb2wc cp bsrc none).ret = 0 ∧
        (os.mb2wc cp bsrc none).errSet.getD 0 ≠ 0) := by
      rw [h1]
      rintro ⟨-, hne⟩
      exact hne rfl
    have hc2 : ¬((os.mb2wc cp bsrc (some (os.mb2wc cp bsrc none).ret)).ret = 0 ∧
        (os.mb2wc cp bsrc (some (os.mb2wc cp bsrc none).ret)).errSet.getD
          ((os.mb2wc cp bsrc none).errSet.getD 0) ≠ 0) := by
      rw [h1, h2]
      rintro ⟨-, hne⟩
      exact hne rfl
    simp only [ConvertToW, if_neg hb, if_neg hblt, if_neg hc1, if_neg hc2]
  · intro g hg
    simp only [ConvertToW, if_neg hb, if_neg hblt] at hg
    by_cases hc1 : (os.mb2wc cp bsrc none).ret = 0 ∧
        (os.mb2wc cp bsrc none).errSet.getD 0 ≠ 0
    · rw [if_pos hc1] at hg
      simp only [Except.error.injEq, ConvError.conversionFailure.injEq] at hg
      have hzero : g ≠ 0 := by
        rw [← hg]
        exact hc1.2
      refine ⟨hzero, Or.inl ?_⟩
      rcases he : (os.mb2wc cp bsrc none).errSet with - | v
      · rw [he, Option.getD_none] at hg
        exact absurd hg.symm hzero
      · rw [he, Option.getD_some] at hg
        exact congrArg some hg
    · rw [if_neg hc1] at hg
      by_cases hc2 : (os.mb2wc cp bsrc (some (os.mb2wc cp bsrc none).ret)).ret = 0 ∧
          (os.mb2wc cp bsrc (some (os.mb2wc cp bsrc none).ret)).errSet.getD
            ((os.mb2wc cp bsrc none).errSet.getD 0) ≠ 0
      · rw [if_pos hc2] at hg
        simp only [Except.error.injEq, ConvError.conversionFailure.injEq] at hg
        have hzero : g ≠ 0 := by
          rw [← hg]
          exact hc2.2
        refine ⟨hzero, ?_⟩
        rcases he2 : (os.mb2wc cp bsrc (some (os.mb2wc cp bsrc none).ret)).errSet with - | v
        · rw [he2, Option.getD_none] at hg
          rcases he1 : (os.mb2wc cp bsrc none).errSet with - | w
          · rw [he1, Option.getD_none] at hg
            exact absurd hg.symm hzero
          · rw [he1, Option.getD_some] at hg
            exact Or.inl (congrArg some hg)
        · rw [he2, Option.getD_some] at hg
          exact Or.inr (congrArg some hg)
      · rw [if_neg hc2] at hg
        simp at hg
  · intro h0
    simp only [ConvertToA, if_neg hw, if_neg hwlt, if_pos h0]

/-- C2 witness: the amended policy at the zero-output oracle with a
stale error of 5. -/
theorem conversion_error_policy_amended_witness :
    ((zeroOutputOs.mb2wc 437 [12] none).errSet = none →
      (zeroOutputOs.mb2wc 437 [12] (some (zeroOutputOs.mb2wc 437 [12] none).ret)).errSet =
        none →
      (ConvertToW zeroOutputOs 437 [12] 5).1 =
        .ok (fixLen (zeroOutputOs.mb2wc 437 [12]
              (some (zeroOutputOs.mb2wc 437 [12] none).ret)).out
              (zeroOutputOs.mb2wc 437 [12] none).ret 0)) ∧
    (∀ g, (ConvertToW zeroOutputOs 437 [12] 5).1 =
        .error (ConvError.conversionFailure g) →
      g ≠ 0 ∧ ((zeroOutputOs.mb2wc 437 [12] none).errSet = some g ∨
        (zeroOutputOs.mb2wc 437 [12]
          (some (zeroOutputOs.mb2wc 437 [12] none).ret)).errSet = some g)) ∧
    ((zeroOutputOs.wc2mb 437 [160] none).ret = 0 →
      (ConvertToA zeroOutputOs 437 [160] 5).1 =
        .error (ConvError.conversionFailure
          ((zeroOutputOs.wc2mb 437 [160] none).errSet.getD 5))) :=
  conversion_error_policy_amended zeroOutputOs 437 5 [12] [160]
    (by decide) (by decide) (by decide) (by decide)

/-- C8: whenever both succeed, the measured length equals the byte
length of the converted result. -/
theorem getALengthFromW_matches_convertToA (os : OsApi) (cp le1 le2 : Nat)
    (src : List Nat) (n : Nat) (bytes : List Int)
    (hlen : (GetALengthFromW os cp src le1).1 = .ok n)
    (hconv : (ConvertToA os cp src le2).1 = .ok bytes) :
    bytes.length = n := by
  by_cases he : src = []
  · simp only [GetALengthFromW, if_pos he] at hlen
    simp only [ConvertToA, if_pos he] at hconv
    cases hlen
    cases hconv
    rfl
  · simp only [GetALengthFromW, if_neg he] at hlen
    simp only [ConvertToA, if_neg he] at hconv
    by_cases ho : intMax < src.length
    · rw [if_pos ho] at hlen
      cases hlen
    · rw [if_neg ho] at hlen
      rw [if_neg ho] at hconv
      by_cases h0 : (os.wc2mb cp src none).ret = 0
      · rw [if_pos h0] at hlen
        cases hlen
      · rw [if_neg h0] at hlen
        rw [if_neg h0] at hconv
        by_cases hc0 : (os.wc2mb cp src (some (os.wc2mb cp src none).ret)).ret = 0
        · rw [if_pos hc0] at hconv
          cases hconv
        · rw [if_neg hc0] at hconv
          cases hlen
          cases hconv
          exact fixLen_length _ _ _

/-- C8 witness: on the 255-byte oracle both operations succeed and the
measured length 1 matches the one-byte result. -/
theorem getALengthFromW_matches_convertToA_witness :
    ([(-1 : Int)] : List Int).length = 1 :=
  getALengthFromW_matches_convertToA sampleOs 437 0 0 [160] 1 [-1] rfl rfl

end ConvertSpec
